import Mathlib

/-!
Shallow embedding of the CommitRank synchronization core:
the KV cache helpers (`src/lib/server/cache.ts`), the rate limiter
(`src/lib/server/ratelimit.ts`), the sync runtime configuration
(`src/lib/server/sync-config.ts`) and the scheduled sync engine
(`src/lib/server/sync.ts`), together with theorems settling the
specification's claims about them.

Modelling conventions:
* Cloudflare KV is a finite association list from keys to entries; an entry
  records the stored string and the `expirationTtl` passed at `put` time.
  TTL expiry itself is not modelled: the claims under consideration assume no
  expiry happens between the operations they talk about.
* JavaScript numbers that can be `NaN` are `Option Int` (`none` = `NaN`);
  the values the programs actually store and parse are integers.
* Asynchronous effects are sequenced in program order; `sleep` and logging
  have no observable effect on the modelled state and are dropped.
* Wall-clock reads (`new Date()`) become explicit string parameters carrying
  ISO-8601 timestamps, which ISO-8601 orders lexicographically.
-/

namespace CommitRank

/-! ### JavaScript primitives -/

/-- Decimal digit characters `'0'`-`'9'`, by code point. -/
def isDecDigit (c : Char) : Bool := 48 ≤ c.toNat && c.toNat ≤ 57

/-- Whitespace skipped by `parseInt` / `trim` (the forms that occur here). -/
def jsWsChar (c : Char) : Bool := c == ' ' || c == '\t' || c == '\n' || c == '\r'

/-- Value of a big-endian list of decimal digit characters, accumulated onto `a`. -/
def digitsVal (a : Nat) (cs : List Char) : Nat :=
  cs.foldl (fun a c => a * 10 + (c.toNat - 48)) a

/-- Leading run of decimal digits, or `none` when there is none
(`parseInt` yields `NaN` there). -/
def jsParseDigits (cs : List Char) : Option Nat :=
  let ds := cs.takeWhile isDecDigit
  if ds.isEmpty then none else some (digitsVal 0 ds)

/-- JavaScript `parseInt(s, 10)`: skip whitespace, read an optional sign, then
the longest run of decimal digits; `none` models `NaN`. -/
def jsParseInt (s : String) : Option Int :=
  match s.data.dropWhile jsWsChar with
  | [] => none
  | c :: r =>
    if c = '-' then (jsParseDigits r).map (fun m => -(m : Int))
    else if c = '+' then (jsParseDigits r).map (fun m => (m : Int))
    else (jsParseDigits (c :: r)).map (fun m => (m : Int))

/-- JavaScript `Number.prototype.toString` on a possibly-`NaN` integer. -/
def numToStr : Option Int → String
  | some v => v.repr
  | none => "NaN"

/-- String.trim as JavaScript performs it in `toNumber`. -/
def jsTrim (s : String) : String :=
  String.mk (((s.data.dropWhile jsWsChar).reverse.dropWhile jsWsChar).reverse)

/-- Lexicographic order on character lists by code point. -/
def charListLt : List Char → List Char → Bool
  | [], [] => false
  | [], _ :: _ => true
  | _ :: _, [] => false
  | a :: as, b :: bs =>
    Nat.blt a.toNat b.toNat || (a.toNat == b.toNat && charListLt as bs)

/-- JavaScript `a < b` on strings (code-unit lexicographic; these strings
are ASCII, where code units and code points agree). -/
def strLt (a b : String) : Bool := charListLt a.data b.data

/-- JavaScript `a <= b` on strings (total order, so `¬ b < a`). -/
def strLe (a b : String) : Bool := !(strLt b a)

/-! ### KV store model -/

/-- One stored KV entry: the serialized value and the `expirationTtl` that was
passed when it was written. -/
structure KVEntry where
  value : String
  ttl : Nat
deriving DecidableEq

/-- The KV namespace: an association list from keys to entries. -/
abbrev KV := List (String × KVEntry)

/-- `kv.get(key)`: the stored string, if the key is present. -/
def kvGet (kv : KV) (key : String) : Option String :=
  (List.lookup key kv).map KVEntry.value

/-- The full stored entry at a key (used to state TTL properties). -/
def kvEntry (kv : KV) (key : String) : Option KVEntry :=
  List.lookup key kv

/-- `kv.delete(key)`: removes the key; deleting an absent key is a no-op. -/
def kvDelete (kv : KV) (key : String) : KV :=
  List.filter (fun e => !(e.1 == key)) kv

/-- `kv.put(key, value, {expirationTtl})`: unconditional overwrite. -/
def kvPut (kv : KV) (key value : String) (ttl : Nat) : KV :=
  (key, ⟨value, ttl⟩) :: kvDelete kv key

/-- Prefix test on keys, character by character. -/
def strIsPrefixOf (p s : String) : Bool :=
  List.isPrefixOf p.data s.data

/-- `kv.list({prefix})`: the keys sharing the prefix; a `none` prefix
(JavaScript `undefined`) applies no filter and lists every key. -/
def kvListKeys (kv : KV) (pfx : Option String) : List String :=
  (kv.map Prod.fst).filter (fun k =>
    match pfx with
    | some p => strIsPrefixOf p k
    | none => true)

/-! ### Cache helpers (`cache.ts`) -/

/-- Serialization layer standing for `JSON.stringify` / `JSON.parse` at a
type: an encoder and a decoder, with `none` modelling a parse failure. -/
structure Codec (α : Type) where
  enc : α → String
  dec : String → Option α

/-- JSON string encoding as it applies to the ISO timestamps stored here. -/
def stringJsonCodec : Codec String where
  enc := fun s => "\"" ++ s ++ "\""
  dec := fun s =>
    if s.startsWith "\"" && s.endsWith "\"" && 2 ≤ s.length then
      some ((s.drop 1).dropRight 1)
    else none

/-- `CACHE_KEYS` property access: the object in `cache.ts` has exactly these
six properties; reading any other property yields JavaScript `undefined`,
modelled as `none`. -/
def cacheKeysProp : String → Option String
  | "LEADERBOARD" => some "leaderboard"
  | "USER" => some "user"
  | "GITHUB" => some "github"
  | "STATS" => some "stats"
  | "LAST_SYNC" => some "last_sync"
  | "AVATAR" => some "avatar"
  | _ => none

/-- `statsKey()`. -/
def statsKey : String := "stats"

/-- `lastSyncKey()`. -/
def lastSyncKey : String := "last_sync"

/-- `getCached`: read and parse; a malformed payload is treated as absent. -/
def getCached (c : Codec α) (kv : KV) (key : String) : Option α :=
  match kvGet kv key with
  | none => none
  | some v => c.dec v

/-- `setCached`: serialize and store with the given TTL. -/
def setCached (c : Codec α) (kv : KV) (key : String) (v : α) (ttl : Nat) : KV :=
  kvPut kv key (c.enc v) ttl

/-- `deleteCached`. -/
def deleteCached (kv : KV) (key : String) : KV :=
  kvDelete kv key

/-- `invalidateByPrefix`: list the keys sharing the prefix, then delete each.
The prefix is `Option String` because one call site passes a property that
does not exist on `CACHE_KEYS`, which is `undefined` at runtime. -/
def invalidateByPrefix (kv : KV) (pfx : Option String) : KV :=
  (kvListKeys kv pfx).foldl kvDelete kv

/-- `invalidateLeaderboardCache`. -/
def invalidateLeaderboardCache (kv : KV) : KV :=
  invalidateByPrefix kv (cacheKeysProp "LEADERBOARD")

/-- Result of `getOrSet`, instrumented with the number of times the fetcher
ran (`fetchCalls`), which the source claim quantifies over. -/
structure GetOrSetOut (α : Type) where
  value : α
  cached : Bool
  fetchCalls : Nat
  kv : KV
deriving DecidableEq

/-- `getOrSet`: return the cached value on a hit; on a miss invoke the
fetcher, store its result with the given TTL, and return it. -/
def getOrSet (c : Codec α) (kv : KV) (key : String) (ttl : Nat)
    (fetcher : Unit → α) : GetOrSetOut α :=
  match getCached c kv key with
  | some v => ⟨v, true, 0, kv⟩
  | none =>
    let v := fetcher ()
    ⟨v, false, 1, setCached c kv key v ttl⟩

/-! ### Rate limiter (`ratelimit.ts`) -/

/-- Result of `checkRateLimit`; `remaining` is a JavaScript number
(`none` = `NaN`, unreachable from states the limiter itself writes). -/
structure RateLimitResult where
  allowed : Bool
  remaining : Option Int
  resetIn : Nat
deriving DecidableEq

/-- JavaScript `x >= y` where `x` may be `NaN` (comparisons with `NaN` are
false). -/
def jsGe (x : Option Int) (y : Int) : Bool :=
  match x with
  | some v => decide (y ≤ v)
  | none => false

/-- `checkRateLimit(kv, key, limit, windowSeconds)`: read the counter
(absent or empty reads as 0), deny without writing when it has reached the
limit, otherwise increment and store with TTL = `windowSeconds`. -/
def checkRateLimit (kv : KV) (key : String) (limit windowSeconds : Nat) :
    RateLimitResult × KV :=
  let currentCount : Option Int :=
    match kvGet kv key with
    | none => some 0
    | some v => if v = "" then some 0 else jsParseInt v
  if jsGe currentCount limit then
    ({ allowed := false, remaining := some 0, resetIn := windowSeconds }, kv)
  else
    let newCount := currentCount.map (· + 1)
    ({ allowed := true
       remaining := newCount.map (fun c => (limit : Int) - c)
       resetIn := windowSeconds },
     kvPut kv key (numToStr newCount) windowSeconds)

/-- KV state after `n` consecutive `checkRateLimit` calls on a fresh key,
with no TTL expiry in between. -/
def rlState (key : String) (limit windowSeconds : Nat) : Nat → KV
  | 0 => []
  | n + 1 => (checkRateLimit (rlState key limit windowSeconds n) key limit windowSeconds).2

/-- The `k`-th call (1-based) of that sequence. -/
def nthRateLimitCall (key : String) (limit windowSeconds k : Nat) :
    RateLimitResult × KV :=
  checkRateLimit (rlState key limit windowSeconds (k - 1)) key limit windowSeconds

/-! ### Sync runtime configuration (`sync-config.ts`) -/

/-- An environment input: `string | number | null | undefined`. Numbers are
modelled as integers; the string path (`parseInt`) only ever produces
integers. -/
inductive EnvVal where
  | vStr (s : String)
  | vNum (n : Int)
  | vNull
  | vUndef
deriving DecidableEq

/-- `SyncConfigEnv`. -/
structure SyncConfigEnv where
  SYNC_BATCH_SIZE : EnvVal
  SYNC_REQUEST_DELAY_MS : EnvVal

/-- `SyncRuntimeConfig`. -/
structure SyncRuntimeConfig where
  batchSize : Int
  requestDelayMs : Int
deriving DecidableEq

/-- `DEFAULT_SYNC_BATCH_SIZE`. -/
def DEFAULT_SYNC_BATCH_SIZE : Int := 75

/-- `DEFAULT_SYNC_REQUEST_DELAY_MS`. -/
def DEFAULT_SYNC_REQUEST_DELAY_MS : Int := 100

/-- `toNumber`: a finite number passes through; a string is trimmed and fed
to `parseInt(·, 10)`; anything else (and a `NaN` parse) is `null`. -/
def toNumber : EnvVal → Option Int
  | .vNum n => some n
  | .vStr s =>
    let trimmed := jsTrim s
    if trimmed = "" then none else jsParseInt trimmed
  | .vNull => none
  | .vUndef => none

/-- `parseBoundedInt`: fall back to the default when the input is not
numeric or out of bounds. (`Math.floor` is the identity on the integer
inputs modelled here.) -/
def parseBoundedInt (value : EnvVal) (fallback lo hi : Int) : Int :=
  match toNumber value with
  | none => fallback
  | some parsed => if parsed < lo ∨ hi < parsed then fallback else parsed

/-- `getSyncRuntimeConfig`. -/
def getSyncRuntimeConfig (env : SyncConfigEnv) : SyncRuntimeConfig where
  batchSize := parseBoundedInt env.SYNC_BATCH_SIZE DEFAULT_SYNC_BATCH_SIZE 1 500
  requestDelayMs := parseBoundedInt env.SYNC_REQUEST_DELAY_MS DEFAULT_SYNC_REQUEST_DELAY_MS 0 5000

/-! ### GitHub client contract (`github/client.ts`) -/

/-- `GitHubErrorType`. -/
inductive GitHubErrorType where
  | NOT_FOUND
  | RATE_LIMITED
  | UNAUTHORIZED
  | API_ERROR
deriving DecidableEq

/-- The string form of an error type, as interpolated into `error.type`. -/
def GitHubErrorType.label : GitHubErrorType → String
  | .NOT_FOUND => "NOT_FOUND"
  | .RATE_LIMITED => "RATE_LIMITED"
  | .UNAUTHORIZED => "UNAUTHORIZED"
  | .API_ERROR => "API_ERROR"

/-- A value thrown during one entity's sync: a typed `GitHubApiError`, some
other `Error`, or a non-`Error` value. -/
inductive JsThrown where
  | apiError (t : GitHubErrorType) (msg : String)
  | jsError (msg : String)
  | otherThrown
deriving DecidableEq

/-- The error classification string built in the `catch` block of
`syncUserContributions`. -/
def jsErrorMessage : JsThrown → String
  | .apiError t msg => t.label ++ ": " ++ msg
  | .jsError msg => msg
  | .otherThrown => "Unknown error"

/-- One day of the returned contribution calendar. -/
structure ContributionDay where
  date : String
  contributionCount : Nat
deriving DecidableEq

/-- The profile fields of `githubData.user` that the sync writes back. -/
structure GitHubUserData where
  avatarUrl : String
  name : Option String
  bio : Option String
  location : Option String
  company : Option String
  websiteUrl : Option String
  repositories : Nat
  followers : Nat
  following : Nat
deriving DecidableEq

/-- The payload of a successful `fetchContributions` call. -/
structure GitHubContributionData where
  user : GitHubUserData
  days : List ContributionDay
deriving DecidableEq

/-! ### Database model (`db/schema.ts` rows used by the sync) -/

/-- A row of the `users` table (the columns the sync reads or writes). -/
structure UserRow where
  id : String
  github_username : String
  updated_at : String
  avatar_url : String
  display_name : Option String
  bio : Option String
  location : Option String
  company : Option String
  blog : Option String
  public_repos : Nat
  followers : Nat
  following : Nat
deriving DecidableEq

/-- A row of the `contributions` table. -/
structure ContributionRow where
  user_id : String
  date : String
  commit_count : Nat
  pr_count : Nat
  issue_count : Nat
  review_count : Nat
  total_contributions : Nat
deriving DecidableEq

/-- The relational store: the two tables the sync touches, each as a list of
rows in table order. -/
structure Db where
  users : List UserRow
  contributions : List ContributionRow
deriving DecidableEq

/-- `DELETE FROM contributions WHERE user_id = ? AND date = ?`. -/
def deleteUserDateRows (rows : List ContributionRow) (userId date : String) :
    List ContributionRow :=
  rows.filter (fun r => !(r.user_id == userId && r.date == date))

/-- The `UPDATE users SET <profile fields>, updated_at = now WHERE id = ?`
issued on a successful sync. -/
def dbUpdateProfileAndTimestamp (db : Db) (userId : String)
    (u : GitHubUserData) (now : String) : Db :=
  { db with
    users := db.users.map (fun r =>
      if r.id = userId then
        { r with
          avatar_url := u.avatarUrl
          display_name := u.name
          bio := u.bio
          location := u.location
          company := u.company
          blog := u.websiteUrl
          public_repos := u.repositories
          followers := u.followers
          following := u.following
          updated_at := now }
      else r) }

/-- The `UPDATE users SET updated_at = now WHERE id = ?` issued when a sync
fails ("still update the timestamp to prevent retry loop"). -/
def dbBumpUpdatedAt (db : Db) (userId now : String) : Db :=
  { db with
    users := db.users.map (fun r =>
      if r.id = userId then { r with updated_at := now } else r) }

/-! ### Scheduled sync engine (`sync.ts`) -/

/-- `SyncResult`. -/
structure SyncResult where
  username : String
  success : Bool
  error : Option String
  contributionsUpdated : Option Nat
deriving DecidableEq

/-- `SyncSummary` (`durationMs`, a wall-clock reading, is not modelled and
fixed at 0). -/
structure SyncSummary where
  totalUsersInDb : Nat
  batchSize : Nat
  syncedCount : Nat
  successCount : Nat
  failureCount : Nat
  results : List SyncResult
  durationMs : Nat
deriving DecidableEq

/-- The rows built from `githubData.contributions.days`: days with a
positive count, mapped onto `contributions` columns. -/
def contributionValuesOf (userId : String) (data : GitHubContributionData) :
    List ContributionRow :=
  (data.days.filter (fun day => 0 < day.contributionCount)).map (fun day =>
    { user_id := userId
      date := day.date
      commit_count := day.contributionCount
      pr_count := 0
      issue_count := 0
      review_count := 0
      total_contributions := day.contributionCount })

/-- The trailing-window subset: rows whose date is on or after the cutoff
(JavaScript `c.date >= cutoffDate`, a lexicographic comparison). -/
def recentContributionsOf (userId : String) (data : GitHubContributionData)
    (cutoffDate : String) : List ContributionRow :=
  (contributionValuesOf userId data).filter (fun c => strLe cutoffDate c.date)

/-- `syncUserContributions`: fetch one user's data, rewrite the trailing
window of contribution rows, refresh the profile, and bump `updated_at`; on
any thrown error, bump `updated_at` anyway and record the classification.
The external fetch is an oracle from username to outcome; the avatar
pre-warm is fire-and-forget and has no modelled effect. -/
def syncUserContributions (fetch : String → Except JsThrown GitHubContributionData)
    (db : Db) (userId username now cutoffDate : String) : SyncResult × Db :=
  match fetch username with
  | .ok githubData =>
    let recentContributions := recentContributionsOf userId githubData cutoffDate
    let db1 :=
      if 0 < recentContributions.length then
        { db with
          contributions :=
            (recentContributions.foldl
              (fun rows c => deleteUserDateRows rows userId c.date)
              db.contributions) ++ recentContributions }
      else db
    let db2 := dbUpdateProfileAndTimestamp db1 userId githubData.user now
    ({ username := username
       success := true
       error := none
       contributionsUpdated := some recentContributions.length }, db2)
  | .error e =>
    let errorMessage := jsErrorMessage e
    let db1 := dbBumpUpdatedAt db userId now
    ({ username := username
       success := false
       error := some errorMessage
       contributionsUpdated := none }, db1)

/-- Insertion into a list sorted by `updated_at`. -/
def insertByUpdatedAt (u : UserRow) : List UserRow → List UserRow
  | [] => [u]
  | v :: vs =>
    if strLe u.updated_at v.updated_at then u :: v :: vs
    else v :: insertByUpdatedAt u vs

/-- The `ORDER BY updated_at ASC` of the batch selection, as a sort of the
users table. -/
def sortUsersByUpdatedAt : List UserRow → List UserRow
  | [] => []
  | u :: us => insertByUpdatedAt u (sortUsersByUpdatedAt us)

/-- The batch selection: `id` and `github_username` of the first `batchSize`
users, least recently updated first. -/
def selectedPairs (db : Db) (batchSize : Nat) : List (String × String) :=
  ((sortUsersByUpdatedAt db.users).take batchSize).map (fun u => (u.id, u.github_username))

/-- Accumulator of the per-user loop of `runScheduledSync`. -/
structure LoopAcc where
  results : List SyncResult
  successCount : Nat
  failureCount : Nat
  db : Db

/-- One iteration of the loop: sync one user, count the outcome, push the
result (the inter-request sleep has no modelled effect). -/
def syncStep (fetch : String → Except JsThrown GitHubContributionData)
    (now cutoffDate : String) (acc : LoopAcc) (u : String × String) : LoopAcc :=
  let rd := syncUserContributions fetch acc.db u.1 u.2 now cutoffDate
  if rd.1.success then
    { results := acc.results ++ [rd.1]
      successCount := acc.successCount + 1
      failureCount := acc.failureCount
      db := rd.2 }
  else
    { results := acc.results ++ [rd.1]
      successCount := acc.successCount
      failureCount := acc.failureCount + 1
      db := rd.2 }

/-- The whole per-user loop. -/
def syncLoop (fetch : String → Except JsThrown GitHubContributionData)
    (now cutoffDate : String) (acc : LoopAcc) (users : List (String × String)) : LoopAcc :=
  users.foldl (syncStep fetch now cutoffDate) acc

/-- The cache work after the loop: invalidate the leaderboard prefix, the
`CACHE_KEYS.USER` prefix and the (nonexistent) `CACHE_KEYS.PROFILE` prefix,
delete the stats key, and store the last-sync timestamp with a 24h TTL.
`Promise.all` is sequenced in program order. -/
def invalidateCachesAfterSync (kv : KV) (syncCompletedAt : String) : KV :=
  let kv1 := invalidateLeaderboardCache kv
  let kv2 := invalidateByPrefix kv1 (cacheKeysProp "USER")
  let kv3 := invalidateByPrefix kv2 (cacheKeysProp "PROFILE")
  let kv4 := deleteCached kv3 statsKey
  setCached stringJsonCodec kv4 lastSyncKey syncCompletedAt 86400

/-- The run's outputs: the returned summary plus the final database and KV
states. -/
structure RunOutput where
  summary : SyncSummary
  db : Db
  kv : KV

/-- `runScheduledSync`: resolve the batch size, count the users, select the
batch oldest-first, sync each selected user in order, invalidate caches and
record the last-sync timestamp, and build the summary. The timestamps
`now` (per-entity `new Date()`), `cutoffDate` (seven days earlier, date
part) and `syncCompletedAt` are clock readings passed as parameters. -/
def runScheduledSync (fetch : String → Except JsThrown GitHubContributionData)
    (db : Db) (kv : KV) (batchSizeOpt : Option Nat)
    (now cutoffDate syncCompletedAt : String) : RunOutput :=
  let batchSize := batchSizeOpt.getD DEFAULT_SYNC_BATCH_SIZE.toNat
  let totalUsersInDb := db.users.length
  let usersToSync := selectedPairs db batchSize
  let final := syncLoop fetch now cutoffDate ⟨[], 0, 0, db⟩ usersToSync
  let kv2 := invalidateCachesAfterSync kv syncCompletedAt
  { summary :=
      { totalUsersInDb := totalUsersInDb
        batchSize := batchSize
        syncedCount := usersToSync.length
        successCount := final.successCount
        failureCount := final.failureCount
        results := final.results
        durationMs := 0 }
    db := final.db
    kv := kv2 }

/-- Concrete number codec used to instantiate codec-generic statements. -/
def natJsonCodec : Codec Nat where
  enc := Nat.repr
  dec := fun s => (jsParseInt s).map Int.toNat

/-! ### Concrete fixtures used to instantiate the engine theorems -/

/-- A concrete profile payload. -/
def sampleUserData : GitHubUserData where
  avatarUrl := "https://example.test/img"
  name := some "Bob"
  bio := none
  location := none
  company := none
  websiteUrl := none
  repositories := 1
  followers := 2
  following := 3

/-- A registered user whose sync will fail. -/
def sampleAlice : UserRow where
  id := "u1"
  github_username := "alice"
  updated_at := "2024-01-01T00:00:00.000Z"
  avatar_url := ""
  display_name := none
  bio := none
  location := none
  company := none
  blog := none
  public_repos := 0
  followers := 0
  following := 0

/-- A registered user whose sync will succeed. -/
def sampleBob : UserRow where
  id := "u2"
  github_username := "bob"
  updated_at := "2024-01-02T00:00:00.000Z"
  avatar_url := ""
  display_name := none
  bio := none
  location := none
  company := none
  blog := none
  public_repos := 0
  followers := 0
  following := 0

/-- A concrete database: two users (stored newest-first, so the batch
selection has to reorder them) and one old contribution row. -/
def sampleDb : Db where
  users := [sampleBob, sampleAlice]
  contributions := [⟨"u1", "2024-01-01", 2, 0, 0, 0, 2⟩]

/-- A concrete fetch oracle: `alice` fails with a typed not-found error,
everyone else succeeds with one recent and one old day. -/
def sampleFetch : String → Except JsThrown GitHubContributionData :=
  fun username =>
    if username = "alice" then .error (.apiError .NOT_FOUND "Not Found")
    else .ok { user := sampleUserData
               days := [⟨"2024-01-30", 3⟩, ⟨"2023-12-01", 1⟩] }

/-! ## Theorems -/

/-- Folding `kvDelete` over a list of keys filters out exactly the entries
whose key occurs in that list. -/
theorem foldl_kvDelete_eq_filter (ks : List String) (kv : KV) :
    ks.foldl kvDelete kv = List.filter (fun e => !(ks.contains e.1)) kv := by
  induction ks generalizing kv with
  | nil => simp
  | cons k ks ih =>
    simp only [List.foldl_cons]
    rw [ih, kvDelete, List.filter_filter]
    refine List.filter_congr (fun e _ => ?_)
    simp only [List.contains_cons, Bool.not_or, Bool.and_comm]

/-- Looking a key up after filtering on a key predicate. -/
theorem lookup_filter_key (kv : KV) (k : String) (q : String → Bool) :
    List.lookup k (List.filter (fun e => q e.1) kv) =
      if q k then List.lookup k kv else none := by
  induction kv with
  | nil => simp
  | cons e tl ih =>
    obtain ⟨a, v⟩ := e
    by_cases hka : k = a
    · subst hka
      by_cases hq : q k
      · simp [List.filter_cons, hq, List.lookup_cons]
      · simp [List.filter_cons, hq, ih]
    · have hne : (k == a) = false := beq_eq_false_iff_ne.mpr hka
      by_cases hq : q a
      · simp [List.filter_cons, hq, List.lookup_cons, hne, ih]
      · simp [List.filter_cons, hq, ih, List.lookup_cons, hne]

/-- Invalidation with a present (string) prefix filters the store down to
the entries whose key does not carry the prefix. -/
theorem invalidateByPrefix_some_eq_filter (kv : KV) (p : String) :
    invalidateByPrefix kv (some p) =
      List.filter (fun e => !(strIsPrefixOf p e.1)) kv := by
  rw [invalidateByPrefix, foldl_kvDelete_eq_filter]
  refine List.filter_congr (fun e he => ?_)
  congr 1
  by_cases hp : strIsPrefixOf p e.1
  · rw [hp]
    have hmem : e.1 ∈ kvListKeys kv (some p) := by
      simp only [kvListKeys, List.mem_filter, List.mem_map]
      exact ⟨⟨e, he, rfl⟩, hp⟩
    simpa [List.contains, List.elem_iff] using hmem
  · rw [Bool.of_not_eq_true hp]
    have hnmem : e.1 ∉ kvListKeys kv (some p) := by
      intro hmem
      exact hp (List.of_mem_filter hmem)
    simpa [List.contains, List.elem_iff] using hnmem

/-- C5: `invalidateByPrefix(p)` deletes every key that starts with `p` and
deletes no other key; every other entry keeps its value. -/
theorem invalidateByPrefix_exact (kv : KV) (p k : String) :
    kvGet (invalidateByPrefix kv (some p)) k =
      if strIsPrefixOf p k then none else kvGet kv k := by
  rw [invalidateByPrefix_some_eq_filter, kvGet, kvGet,
    lookup_filter_key kv k (fun x => !(strIsPrefixOf p x))]
  by_cases hp : strIsPrefixOf p k <;> simp [hp]

/-- C7: `getOrSet` returns the stored value with `cached = true` and never
invokes the fetcher when the key holds a parseable value; on a miss it
invokes the fetcher exactly once, stores the result under the key with the
given TTL, and returns it with `cached = false`. -/
theorem getOrSet_cached_or_fetch {α : Type} (c : Codec α) (kv : KV)
    (key : String) (ttl : Nat) (fetcher : Unit → α) :
    (∀ v, getCached c kv key = some v →
      getOrSet c kv key ttl fetcher = ⟨v, true, 0, kv⟩) ∧
    (getCached c kv key = none →
      getOrSet c kv key ttl fetcher =
        ⟨fetcher (), false, 1, setCached c kv key (fetcher ()) ttl⟩ ∧
      kvEntry (getOrSet c kv key ttl fetcher).kv key
        = some ⟨c.enc (fetcher ()), ttl⟩) := by
  constructor
  · intro v hv
    simp [getOrSet, hv]
  · intro h
    refine ⟨by simp [getOrSet, h], ?_⟩
    simp [getOrSet, h, setCached, kvPut, kvEntry, List.lookup_cons]

/-- Witness for C7 at a concrete store, codec and fetcher, covering both
the hit and the miss branch. -/
theorem getOrSet_cached_or_fetch_witness :
    (getCached natJsonCodec [("k", ⟨"5", 60⟩)] "k" = some 5 ∧
      getOrSet natJsonCodec [("k", ⟨"5", 60⟩)] "k" 60 (fun _ => 9) =
        ⟨5, true, 0, [("k", ⟨"5", 60⟩)]⟩) ∧
    (getCached natJsonCodec [] "k" = none ∧
      getOrSet natJsonCodec [] "k" 60 (fun _ => 9) =
        ⟨9, false, 1, setCached natJsonCodec [] "k" 9 60⟩) :=
  ⟨⟨by decide, (getOrSet_cached_or_fetch natJsonCodec [("k", ⟨"5", 60⟩)] "k" 60
      (fun _ => 9)).1 5 (by decide)⟩,
   ⟨by decide, ((getOrSet_cached_or_fetch natJsonCodec [] "k" 60
      (fun _ => 9)).2 (by decide)).1⟩⟩

/-- C10: every `checkRateLimit` call that returns `allowed = true` re-stores
the counter with `expirationTtl` equal to the full `windowSeconds`,
regardless of the entry previously stored under the key. -/
theorem checkRateLimit_allowed_puts_full_ttl (kv : KV) (key : String)
    (limit windowSeconds : Nat)
    (h : (checkRateLimit kv key limit windowSeconds).1.allowed = true) :
    ∃ s, kvEntry (checkRateLimit kv key limit windowSeconds).2 key
        = some ⟨s, windowSeconds⟩ := by
  by_cases hc : jsGe
      (match kvGet kv key with
       | none => some 0
       | some v => if v = "" then some 0 else jsParseInt v) (limit : Int)
  · exfalso
    simp [checkRateLimit, hc] at h
  · have h2 : kvEntry (checkRateLimit kv key limit windowSeconds).2 key =
        some ⟨numToStr ((match kvGet kv key with
          | none => some 0
          | some v => if v = "" then some 0 else jsParseInt v).map (· + 1)),
          windowSeconds⟩ := by
      simp [checkRateLimit, hc, kvPut, kvEntry, List.lookup_cons]
    exact ⟨_, h2⟩

/-- Witness for C10: a counter mid-window (entry stored with a smaller TTL)
is re-stored with the full window on an allowed call. -/
theorem checkRateLimit_allowed_puts_full_ttl_witness :
    ∃ s, kvEntry (checkRateLimit [("k", ⟨"1", 17⟩)] "k" 5 60).2 "k"
        = some ⟨s, 60⟩ :=
  checkRateLimit_allowed_puts_full_ttl [("k", ⟨"1", 17⟩)] "k" 5 60 (by decide)

/-- C8: `getSyncRuntimeConfig` is a total function of its input; a numeric
batch size within `[1, 500]` passes through and everything else falls back
to the default 75; a numeric delay within `[0, 5000]` passes through and
everything else falls back to the default 100; in particular
`batchSize = "not-a-number"` and `requestDelayMs = -1` both resolve to the
defaults. -/
theorem getSyncRuntimeConfig_defaults :
    (∀ (v d : EnvVal) (n : Int), toNumber v = some n → 1 ≤ n → n ≤ 500 →
      (getSyncRuntimeConfig ⟨v, d⟩).batchSize = n) ∧
    (∀ (v d : EnvVal) (n : Int), toNumber v = some n → n < 1 ∨ 500 < n →
      (getSyncRuntimeConfig ⟨v, d⟩).batchSize = 75) ∧
    (∀ (v d : EnvVal), toNumber v = none →
      (getSyncRuntimeConfig ⟨v, d⟩).batchSize = 75) ∧
    (∀ (b v : EnvVal) (n : Int), toNumber v = some n → 0 ≤ n → n ≤ 5000 →
      (getSyncRuntimeConfig ⟨b, v⟩).requestDelayMs = n) ∧
    (∀ (b v : EnvVal) (n : Int), toNumber v = some n → n < 0 ∨ 5000 < n →
      (getSyncRuntimeConfig ⟨b, v⟩).requestDelayMs = 100) ∧
    (∀ (b v : EnvVal), toNumber v = none →
      (getSyncRuntimeConfig ⟨b, v⟩).requestDelayMs = 100) ∧
    getSyncRuntimeConfig ⟨.vStr "not-a-number", .vNum (-1)⟩ =
      { batchSize := 75, requestDelayMs := 100 } := by
  refine ⟨?_, ?_, ?_, ?_, ?_, ?_, by decide⟩
  · intro v d n h h1 h2
    have hr : ¬(n < 1 ∨ 500 < n) := by omega
    simp [getSyncRuntimeConfig, parseBoundedInt, h, DEFAULT_SYNC_BATCH_SIZE, hr]
  · intro v d n h hr
    simp [getSyncRuntimeConfig, parseBoundedInt, h, DEFAULT_SYNC_BATCH_SIZE, hr]
  · intro v d h
    simp [getSyncRuntimeConfig, parseBoundedInt, h, DEFAULT_SYNC_BATCH_SIZE]
  · intro b v n h h1 h2
    have hr : ¬(n < 0 ∨ 5000 < n) := by omega
    simp [getSyncRuntimeConfig, parseBoundedInt, h, DEFAULT_SYNC_REQUEST_DELAY_MS, hr]
  · intro b v n h hr
    simp [getSyncRuntimeConfig, parseBoundedInt, h, DEFAULT_SYNC_REQUEST_DELAY_MS, hr]
  · intro b v h
    simp [getSyncRuntimeConfig, parseBoundedInt, h, DEFAULT_SYNC_REQUEST_DELAY_MS]

/-- Witness for C8: an in-range numeric input passes through, and the
out-of-range / non-numeric scenario resolves to both defaults. -/
theorem getSyncRuntimeConfig_defaults_witness :
    (getSyncRuntimeConfig ⟨.vStr "120", .vNum 250⟩).batchSize = 120 :=
  getSyncRuntimeConfig_defaults.1 (.vStr "120") (.vNum 250) 120 (by decide)
    (by decide) (by decide)

/-- C4 (failing input): the post-loop invalidation step reads
`CACHE_KEYS.PROFILE`, a property `CACHE_KEYS` does not have, so
`invalidateByPrefix` runs with an `undefined` prefix, lists every key, and
deletes entries carrying neither the leaderboard nor the user nor any other
intended prefix: here both a rate-limit counter and an avatar entry are
destroyed, while the claim says they are left unchanged. -/
theorem invalidation_step_deletes_unrelated_keys :
    kvGet (invalidateCachesAfterSync
        [("ratelimit:register:1.2.3.4", ⟨"3", 3600⟩),
         ("avatar:alice", ⟨"img", 604800⟩)]
        "2026-02-12T00:00:00.000Z") "ratelimit:register:1.2.3.4" = none ∧
    kvGet (invalidateCachesAfterSync
        [("ratelimit:register:1.2.3.4", ⟨"3", 3600⟩),
         ("avatar:alice", ⟨"img", 604800⟩)]
        "2026-02-12T00:00:00.000Z") "avatar:alice" = none ∧
    cacheKeysProp "PROFILE" = none := by
  decide

/-- The returned `SyncResult` of one entity's sync does not depend on the
database state, only on the fetch outcome. -/
theorem fst_syncUserContributions_db_irrel
    (fetch : String → Except JsThrown GitHubContributionData)
    (db db' : Db) (userId username now cutoffDate : String) :
    (syncUserContributions fetch db userId username now cutoffDate).1 =
      (syncUserContributions fetch db' userId username now cutoffDate).1 := by
  cases h : fetch username <;> simp [syncUserContributions, h]

/-- One loop step appends exactly one result. -/
theorem syncStep_results
    (fetch : String → Except JsThrown GitHubContributionData)
    (now cutoffDate : String) (acc : LoopAcc) (u : String × String) :
    (syncStep fetch now cutoffDate acc u).results =
      acc.results ++ [(syncUserContributions fetch acc.db u.1 u.2 now cutoffDate).1] := by
  rw [syncStep]
  split <;> rfl

/-- One loop step bumps exactly one of the two counters, matching the
produced result's success flag. -/
theorem syncStep_counts
    (fetch : String → Except JsThrown GitHubContributionData)
    (now cutoffDate : String) (acc : LoopAcc) (u : String × String) :
    (syncStep fetch now cutoffDate acc u).successCount =
      acc.successCount +
        (if (syncUserContributions fetch acc.db u.1 u.2 now cutoffDate).1.success then 1 else 0) ∧
    (syncStep fetch now cutoffDate acc u).failureCount =
      acc.failureCount +
        (if (syncUserContributions fetch acc.db u.1 u.2 now cutoffDate).1.success then 0 else 1) := by
  rw [syncStep]
  split <;> rename_i h <;> simp [h]

/-- The loop produces, in order, one result per selected user, and it is
the result that user's sync would produce against any database state. -/
theorem syncLoop_results
    (fetch : String → Except JsThrown GitHubContributionData)
    (now cutoffDate : String) (db0 : Db) :
    ∀ (users : List (String × String)) (acc : LoopAcc),
      (syncLoop fetch now cutoffDate acc users).results =
        acc.results ++ users.map
          (fun u => (syncUserContributions fetch db0 u.1 u.2 now cutoffDate).1) := by
  intro users
  induction users with
  | nil => intro acc; simp [syncLoop]
  | cons u us ih =>
    intro acc
    rw [syncLoop, List.foldl_cons, ← syncLoop, ih, syncStep_results,
      fst_syncUserContributions_db_irrel fetch acc.db db0]
    simp

/-- The loop's counters count the successes and failures among the results
it appends. -/
theorem syncLoop_counts
    (fetch : String → Except JsThrown GitHubContributionData)
    (now cutoffDate : String) (db0 : Db) :
    ∀ (users : List (String × String)) (acc : LoopAcc),
      (syncLoop fetch now cutoffDate acc users).successCount =
        acc.successCount + (users.map
          (fun u => (syncUserContributions fetch db0 u.1 u.2 now cutoffDate).1)).countP
            (fun r => r.success) ∧
      (syncLoop fetch now cutoffDate acc users).failureCount =
        acc.failureCount + (users.map
          (fun u => (syncUserContributions fetch db0 u.1 u.2 now cutoffDate).1)).countP
            (fun r => !r.success) := by
  intro users
  induction users with
  | nil => intro acc; simp [syncLoop]
  | cons u us ih =>
    intro acc
    rw [syncLoop, List.foldl_cons, ← syncLoop]
    obtain ⟨ihs, ihf⟩ := ih (syncStep fetch now cutoffDate acc u)
    obtain ⟨hs, hf⟩ := syncStep_counts fetch now cutoffDate acc u
    rw [fst_syncUserContributions_db_irrel fetch acc.db db0] at hs hf
    constructor
    · rw [ihs, hs, List.map_cons, List.countP_cons]
      cases h : (syncUserContributions fetch db0 u.1 u.2 now cutoffDate).1.success <;>
        simp [h] <;> omega
    · rw [ihf, hf, List.map_cons, List.countP_cons]
      cases h : (syncUserContributions fetch db0 u.1 u.2 now cutoffDate).1.success <;>
        simp [h] <;> omega

/-- Counting a predicate and its negation partitions a list. -/
theorem countP_add_countP_not {α : Type} (p : α → Bool) (l : List α) :
    l.countP p + l.countP (fun a => !(p a)) = l.length := by
  induction l with
  | nil => simp
  | cons a l ih =>
    rw [List.countP_cons, List.countP_cons]
    cases h : p a <;> simp [h] <;> omega

/-- Inserting into the sorted list adds one element. -/
theorem length_insertByUpdatedAt (u : UserRow) (l : List UserRow) :
    (insertByUpdatedAt u l).length = l.length + 1 := by
  induction l with
  | nil => rfl
  | cons v vs ih =>
    rw [insertByUpdatedAt]
    split
    · rfl
    · simp [ih]

/-- The batch-selection sort keeps every user. -/
theorem length_sortUsersByUpdatedAt (l : List UserRow) :
    (sortUsersByUpdatedAt l).length = l.length := by
  induction l with
  | nil => rfl
  | cons u us ih =>
    rw [sortUsersByUpdatedAt, length_insertByUpdatedAt, ih]
    rfl

/-- C2: in every completed run, `successCount + failureCount = syncedCount`,
`syncedCount = min batchSize totalUsersInDb`, and the two counters count
exactly the results with `success = true` resp. `success = false`. -/
theorem sync_summary_counts
    (fetch : String → Except JsThrown GitHubContributionData)
    (db : Db) (kv : KV) (batchSizeOpt : Option Nat)
    (now cutoffDate syncCompletedAt : String) :
    (runScheduledSync fetch db kv batchSizeOpt now cutoffDate syncCompletedAt).summary.successCount
        + (runScheduledSync fetch db kv batchSizeOpt now cutoffDate syncCompletedAt).summary.failureCount
        = (runScheduledSync fetch db kv batchSizeOpt now cutoffDate syncCompletedAt).summary.syncedCount ∧
    (runScheduledSync fetch db kv batchSizeOpt now cutoffDate syncCompletedAt).summary.syncedCount
        = min (runScheduledSync fetch db kv batchSizeOpt now cutoffDate syncCompletedAt).summary.batchSize
            (runScheduledSync fetch db kv batchSizeOpt now cutoffDate syncCompletedAt).summary.totalUsersInDb ∧
    (runScheduledSync fetch db kv batchSizeOpt now cutoffDate syncCompletedAt).summary.successCount
        = (runScheduledSync fetch db kv batchSizeOpt now cutoffDate syncCompletedAt).summary.results.countP
            (fun r => r.success) ∧
    (runScheduledSync fetch db kv batchSizeOpt now cutoffDate syncCompletedAt).summary.failureCount
        = (runScheduledSync fetch db kv batchSizeOpt now cutoffDate syncCompletedAt).summary.results.countP
            (fun r => !r.success) := by
  obtain ⟨hs, hf⟩ := syncLoop_counts fetch now cutoffDate db
    (selectedPairs db (batchSizeOpt.getD DEFAULT_SYNC_BATCH_SIZE.toNat)) ⟨[], 0, 0, db⟩
  have hr := syncLoop_results fetch now cutoffDate db
    (selectedPairs db (batchSizeOpt.getD DEFAULT_SYNC_BATCH_SIZE.toNat)) ⟨[], 0, 0, db⟩
  refine ⟨?_, ?_, ?_, ?_⟩
  · show (syncLoop _ _ _ _ _).successCount + (syncLoop _ _ _ _ _).failureCount = _
    rw [hs, hf]
    simp only [Nat.zero_add]
    rw [countP_add_countP_not, List.length_map]
    rfl
  · show (selectedPairs db _).length = min _ db.users.length
    rw [selectedPairs, List.length_map, List.length_take, length_sortUsersByUpdatedAt]
    rfl
  · show (syncLoop _ _ _ _ _).successCount = ((syncLoop _ _ _ _ _).results).countP _
    rw [hs, hr]
    simp
  · show (syncLoop _ _ _ _ _).failureCount = ((syncLoop _ _ _ _ _).results).countP _
    rw [hf, hr]
    simp

/-- C1: a per-entity failure of any kind is absorbed: the run still returns
one result per selected entity, the failing entity's result has
`success = false` and carries the error classification (for a typed
`GitHubApiError`, the string starts with the error type's name), and every
other entity — in particular every later one — still gets its own result. -/
theorem per_entity_failure_isolated
    (fetch : String → Except JsThrown GitHubContributionData)
    (db : Db) (kv : KV) (batchSizeOpt : Option Nat)
    (now cutoffDate syncCompletedAt : String) (i : Nat) (e : JsThrown)
    (hi : i < (selectedPairs db (batchSizeOpt.getD DEFAULT_SYNC_BATCH_SIZE.toNat)).length)
    (hf : fetch (selectedPairs db (batchSizeOpt.getD DEFAULT_SYNC_BATCH_SIZE.toNat))[i].2
      = .error e) :
    (runScheduledSync fetch db kv batchSizeOpt now cutoffDate syncCompletedAt).summary.results.length
        = (selectedPairs db (batchSizeOpt.getD DEFAULT_SYNC_BATCH_SIZE.toNat)).length ∧
    (runScheduledSync fetch db kv batchSizeOpt now cutoffDate syncCompletedAt).summary.results[i]?
        = some { username := (selectedPairs db (batchSizeOpt.getD DEFAULT_SYNC_BATCH_SIZE.toNat))[i].2
                 success := false
                 error := some (jsErrorMessage e)
                 contributionsUpdated := none } ∧
    ∀ t msg, e = .apiError t msg →
      (runScheduledSync fetch db kv batchSizeOpt now cutoffDate syncCompletedAt).summary.results[i]?
          = some { username := (selectedPairs db (batchSizeOpt.getD DEFAULT_SYNC_BATCH_SIZE.toNat))[i].2
                   success := false
                   error := some (t.label ++ ": " ++ msg)
                   contributionsUpdated := none } := by
  have hr := syncLoop_results fetch now cutoffDate db
    (selectedPairs db (batchSizeOpt.getD DEFAULT_SYNC_BATCH_SIZE.toNat)) ⟨[], 0, 0, db⟩
  have key : (runScheduledSync fetch db kv batchSizeOpt now cutoffDate syncCompletedAt).summary.results[i]?
      = some { username := (selectedPairs db (batchSizeOpt.getD DEFAULT_SYNC_BATCH_SIZE.toNat))[i].2
               success := false
               error := some (jsErrorMessage e)
               contributionsUpdated := none } := by
    show (syncLoop _ _ _ _ _).results[i]? = _
    rw [hr]
    simp only [List.nil_append, List.getElem?_map, List.getElem?_eq_getElem hi,
      Option.map_some]
    simp [syncUserContributions, hf]
  refine ⟨?_, key, ?_⟩
  · show (syncLoop _ _ _ _ _).results.length = _
    rw [hr]
    simp
  · intro t msg he
    subst he
    simpa [jsErrorMessage] using key

/-- Witness for C1: in a run over the concrete two-user database, `alice`
fails with a typed not-found error; her result records
`success = false` with the classification string, yet the later entity is
still processed and the run keeps one result per selected entity. -/
theorem per_entity_failure_isolated_witness :
    (runScheduledSync sampleFetch sampleDb [] (some 2)
        "2024-02-01T00:00:00.000Z" "2024-01-25" "2024-02-01T00:00:01.000Z").summary.results[0]?
      = some { username := "alice"
               success := false
               error := some ("NOT_FOUND" ++ ": " ++ "Not Found")
               contributionsUpdated := none } := by
  have h := (per_entity_failure_isolated sampleFetch sampleDb [] (some 2)
      "2024-02-01T00:00:00.000Z" "2024-01-25" "2024-02-01T00:00:01.000Z" 0
      (.apiError .NOT_FOUND "Not Found") (by decide)
      (by rfl)).2.2 .NOT_FOUND "Not Found" rfl
  simpa using h

/-- The lexicographic order is irreflexive. -/
theorem charListLt_self (l : List Char) : charListLt l l = false := by
  induction l with
  | nil => rfl
  | cons a as ih =>
    rw [charListLt]
    have hb : Nat.blt a.toNat a.toNat = false := by
      rw [Bool.eq_false_iff]
      intro h
      rw [Nat.blt_eq] at h
      omega
    simp [hb, ih]

/-- The string order is reflexive. -/
theorem strLe_self (s : String) : strLe s s = true := by
  rw [strLe, strLt, charListLt_self]
  rfl

/-- Every row of the users table after one entity's sync descends from a
pre-sync row with the same id, and its rotation timestamp is either that
run's `now` or the pre-sync value. -/
theorem syncUser_users_shape
    (fetch : String → Except JsThrown GitHubContributionData)
    (db1 : Db) (uid uname now cutoffDate : String) :
    ∀ row ∈ (syncUserContributions fetch db1 uid uname now cutoffDate).2.users,
      ∃ pre ∈ db1.users, pre.id = row.id ∧
        (row.updated_at = now ∨ row.updated_at = pre.updated_at) := by
  intro row hrow
  cases hfe : fetch uname with
  | ok data =>
    have hrow2 : row ∈ db1.users.map (fun r =>
        if r.id = uid then
          { r with
            avatar_url := data.user.avatarUrl
            display_name := data.user.name
            bio := data.user.bio
            location := data.user.location
            company := data.user.company
            blog := data.user.websiteUrl
            public_repos := data.user.repositories
            followers := data.user.followers
            following := data.user.following
            updated_at := now }
        else r) := by
      simpa [syncUserContributions, hfe, dbUpdateProfileAndTimestamp,
        apply_ite Db.users] using hrow
    obtain ⟨pre, hpre, hg⟩ := List.mem_map.mp hrow2
    by_cases hid : pre.id = uid
    · exact ⟨pre, hpre, by rw [← hg]; simp [hid], Or.inl (by rw [← hg]; simp [hid])⟩
    · exact ⟨pre, hpre, by rw [← hg]; simp [hid], Or.inr (by rw [← hg]; simp [hid])⟩
  | error e =>
    have hrow2 : row ∈ db1.users.map (fun r =>
        if r.id = uid then { r with updated_at := now } else r) := by
      simpa [syncUserContributions, hfe, dbBumpUpdatedAt] using hrow
    obtain ⟨pre, hpre, hg⟩ := List.mem_map.mp hrow2
    by_cases hid : pre.id = uid
    · exact ⟨pre, hpre, by rw [← hg]; simp [hid], Or.inl (by rw [← hg]; simp [hid])⟩
    · exact ⟨pre, hpre, by rw [← hg]; simp [hid], Or.inr (by rw [← hg]; simp [hid])⟩

/-- The loop preserves the rotation-timestamp invariant: every row descends
from an original row with the same id and a rotation timestamp that has not
decreased. -/
theorem syncLoop_rotation_invariant
    (fetch : String → Except JsThrown GitHubContributionData)
    (now cutoffDate : String) (db0 : Db)
    (hnow : ∀ r ∈ db0.users, strLe r.updated_at now = true) :
    ∀ (users : List (String × String)) (acc : LoopAcc),
      (∀ row ∈ acc.db.users, ∃ orig ∈ db0.users,
        orig.id = row.id ∧ strLe orig.updated_at row.updated_at = true) →
      ∀ row ∈ (syncLoop fetch now cutoffDate acc users).db.users,
        ∃ orig ∈ db0.users,
          orig.id = row.id ∧ strLe orig.updated_at row.updated_at = true := by
  intro users
  induction users with
  | nil => intro acc hacc; simpa [syncLoop] using hacc
  | cons u us ih =>
    intro acc hacc
    rw [syncLoop, List.foldl_cons, ← syncLoop]
    apply ih
    intro row hrow
    have hdb : (syncStep fetch now cutoffDate acc u).db =
        (syncUserContributions fetch acc.db u.1 u.2 now cutoffDate).2 := by
      rw [syncStep]
      split <;> rfl
    rw [hdb] at hrow
    obtain ⟨pre, hpre, hid, hup⟩ :=
      syncUser_users_shape fetch acc.db u.1 u.2 now cutoffDate row hrow
    obtain ⟨orig, horig, hoid, hole⟩ := hacc pre hpre
    rcases hup with h | h
    · exact ⟨orig, horig, by rw [hoid, hid], by rw [h]; exact hnow orig horig⟩
    · exact ⟨orig, horig, by rw [hoid, hid], by rw [h]; exact hole⟩

/-- C3: whether an entity's sync succeeds or fails, every users-table row
after the run descends from a pre-run row with the same id whose rotation
timestamp is less than or equal to the post-run one — rotation timestamps
never decrease across a run. -/
theorem rotation_timestamp_monotone
    (fetch : String → Except JsThrown GitHubContributionData)
    (db : Db) (kv : KV) (batchSizeOpt : Option Nat)
    (now cutoffDate syncCompletedAt : String)
    (hnow : ∀ r ∈ db.users, strLe r.updated_at now = true) :
    ∀ row ∈ (runScheduledSync fetch db kv batchSizeOpt now cutoffDate syncCompletedAt).db.users,
      ∃ orig ∈ db.users,
        orig.id = row.id ∧ strLe orig.updated_at row.updated_at = true := by
  intro row hrow
  exact syncLoop_rotation_invariant fetch now cutoffDate db hnow
    (selectedPairs db (batchSizeOpt.getD DEFAULT_SYNC_BATCH_SIZE.toNat))
    ⟨[], 0, 0, db⟩
    (fun r hr => ⟨r, hr, rfl, strLe_self r.updated_at⟩) row hrow

/-- Witness for C3: in the concrete run, the failed entity `alice` still
ends with `updated_at` bumped to the run's `now`, which is at least her
pre-run timestamp. -/
theorem rotation_timestamp_monotone_witness :
    ∃ orig ∈ sampleDb.users,
      orig.id = ({ sampleAlice with updated_at := "2024-02-01T00:00:00.000Z" } : UserRow).id ∧
      strLe orig.updated_at
        ({ sampleAlice with updated_at := "2024-02-01T00:00:00.000Z" } : UserRow).updated_at = true :=
  rotation_timestamp_monotone sampleFetch sampleDb [] (some 2)
    "2024-02-01T00:00:00.000Z" "2024-01-25" "2024-02-01T00:00:01.000Z"
    (by decide)
    { sampleAlice with updated_at := "2024-02-01T00:00:00.000Z" }
    (by decide)

/-- Folding the per-date deletes over the fetched rows removes exactly this
user's rows carrying one of the fetched dates. -/
theorem foldl_deleteUserDateRows (uid : String) :
    ∀ (cs : List ContributionRow) (rows : List ContributionRow),
      cs.foldl (fun rs c => deleteUserDateRows rs uid c.date) rows =
        rows.filter (fun r =>
          !(r.user_id == uid && (cs.map (fun c => c.date)).contains r.date)) := by
  intro cs
  induction cs with
  | nil => intro rows; simp
  | cons c cs ih =>
    intro rows
    rw [List.foldl_cons, ih, deleteUserDateRows, List.filter_filter]
    refine List.filter_congr (fun r _ => ?_)
    simp only [List.map_cons, List.contains_cons]
    cases hu : r.user_id == uid <;> cases hd : r.date == c.date <;>
      simp [hu, hd, Bool.not_or, Bool.and_comm]

/-- C9: a successful sync replaces exactly the trailing window: afterwards
the contributions table is the old table minus this user's rows for the
fetched in-window dates, plus the fetched in-window rows; every row dated
before the cutoff is untouched. -/
theorem sync_success_rewrites_trailing_window
    (fetch : String → Except JsThrown GitHubContributionData)
    (db : Db) (userId username now cutoffDate : String)
    (data : GitHubContributionData) (hf : fetch username = .ok data) :
    (syncUserContributions fetch db userId username now cutoffDate).2.contributions
      = db.contributions.filter (fun r =>
          !(r.user_id == userId &&
            ((recentContributionsOf userId data cutoffDate).map (fun c => c.date)).contains r.date))
        ++ recentContributionsOf userId data cutoffDate ∧
    (syncUserContributions fetch db userId username now cutoffDate).2.contributions.filter
        (fun r => strLt r.date cutoffDate)
      = db.contributions.filter (fun r => strLt r.date cutoffDate) := by
  have hcontrib : (syncUserContributions fetch db userId username now cutoffDate).2.contributions
      = db.contributions.filter (fun r =>
          !(r.user_id == userId &&
            ((recentContributionsOf userId data cutoffDate).map (fun c => c.date)).contains r.date))
        ++ recentContributionsOf userId data cutoffDate := by
    by_cases hrec : 0 < (recentContributionsOf userId data cutoffDate).length
    · simp only [syncUserContributions, hf, hrec, if_true, dbUpdateProfileAndTimestamp]
      rw [foldl_deleteUserDateRows]
    · have hnil : recentContributionsOf userId data cutoffDate = [] :=
        List.length_eq_zero.mp (by omega)
      simp only [syncUserContributions, hf, hrec, if_false, dbUpdateProfileAndTimestamp, hnil]
      simp
  refine ⟨hcontrib, ?_⟩
  have hrecent : ∀ c ∈ recentContributionsOf userId data cutoffDate,
      strLe cutoffDate c.date = true := by
    intro c hc
    rw [recentContributionsOf] at hc
    exact List.of_mem_filter (p := fun (c : ContributionRow) => strLe cutoffDate c.date) hc
  rw [hcontrib, List.filter_append]
  have h1 : (recentContributionsOf userId data cutoffDate).filter
      (fun r => strLt r.date cutoffDate) = [] := by
    rw [List.filter_eq_nil_iff]
    intro c hc hlt
    have := hrecent c hc
    rw [strLe] at this
    rw [Bool.not_eq_true'] at this
    rw [this] at hlt
    exact absurd hlt (by simp)
  rw [h1, List.append_nil, List.filter_filter]
  refine List.filter_congr (fun r _ => ?_)
  cases hlt : strLt r.date cutoffDate
  · simp [hlt]
  · have hcont : ((recentContributionsOf userId data cutoffDate).map
        (fun c => c.date)).contains r.date = false := by
      rw [Bool.eq_false_iff]
      intro hmem
      rw [List.contains, List.elem_iff] at hmem
      obtain ⟨c, hc, hcd⟩ := List.mem_map.mp hmem
      have hle := hrecent c hc
      rw [hcd, strLe, Bool.not_eq_true'] at hle
      rw [hle] at hlt
      exact absurd hlt (by simp)
    simp only [hlt, hcont, Bool.and_false, Bool.not_false, Bool.true_and]

/-- Witness for C9 at the concrete fixtures: `bob` succeeds with one
in-window and one out-of-window day, and the pre-cutoff rows of the
contributions table are untouched. -/
theorem sync_success_rewrites_trailing_window_witness :
    (syncUserContributions sampleFetch sampleDb "u2" "bob"
        "2024-02-01T00:00:00.000Z" "2024-01-25").2.contributions.filter
        (fun r => strLt r.date "2024-01-25")
      = sampleDb.contributions.filter (fun r => strLt r.date "2024-01-25") :=
  (sync_success_rewrites_trailing_window sampleFetch sampleDb "u2" "bob"
    "2024-02-01T00:00:00.000Z" "2024-01-25"
    { user := sampleUserData, days := [⟨"2024-01-30", 3⟩, ⟨"2023-12-01", 1⟩] }
    (by rfl)).2

/-- The ten digit characters are decimal digits with the expected code
points. -/
theorem digitChar_spec (d : Nat) (h : d < 10) :
    isDecDigit (Nat.digitChar d) = true ∧ (Nat.digitChar d).toNat = 48 + d := by
  interval_cases d <;> exact ⟨by decide, by decide⟩

/-- Appending one digit multiplies the accumulated value by ten. -/
theorem digitsVal_append_singleton (a : Nat) (l : List Char) (c : Char) :
    digitsVal a (l ++ [c]) = digitsVal a l * 10 + (c.toNat - 48) := by
  rw [digitsVal, digitsVal, List.foldl_append]
  rfl

/-- Specification of the core decimal printer: with enough fuel it prepends
a non-empty, all-digit run whose value is the printed number. -/
theorem toDigitsCore_spec :
    ∀ (n fuel : Nat) (ds : List Char), n < fuel →
      ∃ pre : List Char,
        Nat.toDigitsCore 10 fuel n ds = pre ++ ds ∧
        pre ≠ [] ∧
        (∀ c ∈ pre, isDecDigit c = true) ∧
        ∀ a : Nat, digitsVal a pre = a * 10 ^ pre.length + n := by
  intro n
  induction n using Nat.strong_induction_on with
  | _ n ih =>
    intro fuel ds hfuel
    match fuel with
    | 0 => omega
    | f + 1 =>
      rw [Nat.toDigitsCore]
      by_cases hz : n / 10 = 0
      · have hlt10 : n < 10 := by omega
        refine ⟨[(n % 10).digitChar], by simp [hz], by simp, ?_, ?_⟩
        · intro c hc
          rw [List.mem_singleton.mp hc]
          exact (digitChar_spec (n % 10) (Nat.mod_lt _ (by omega))).1
        · intro a
          have hd := (digitChar_spec (n % 10) (Nat.mod_lt _ (by omega))).2
          have h1 : digitsVal a [(n % 10).digitChar]
              = a * 10 + ((n % 10).digitChar.toNat - 48) := rfl
          rw [h1, hd]
          simp only [List.length_singleton, pow_one]
          omega
      · have hnpos : 0 < n := by
          rcases Nat.eq_zero_or_pos n with h | h
          · subst h; simp at hz
          · exact h
        have hlt : n / 10 < n := Nat.div_lt_self hnpos (by omega)
        have hfl : n / 10 < f := by omega
        obtain ⟨pre, hpre, hne, hdig, hval⟩ := ih (n / 10) hlt f ((n % 10).digitChar :: ds) hfl
        refine ⟨pre ++ [(n % 10).digitChar], ?_, by simp, ?_, ?_⟩
        · simp [hz, hpre]
        · intro c hc
          rcases List.mem_append.mp hc with h | h
          · exact hdig c h
          · rw [List.mem_singleton.mp h]
            exact (digitChar_spec (n % 10) (Nat.mod_lt _ (by omega))).1
        · intro a
          have hd := (digitChar_spec (n % 10) (Nat.mod_lt _ (by omega))).2
          rw [digitsVal_append_singleton, hval, hd, List.length_append]
          simp only [List.length_singleton, pow_succ, ← mul_assoc]
          generalize a * 10 ^ pre.length = C
          omega

/-- A decimal digit is not `parseInt` whitespace. -/
theorem jsWsChar_eq_false_of_digit (c : Char) (h : isDecDigit c = true) :
    jsWsChar c = false := by
  rw [jsWsChar, Bool.eq_false_iff]
  intro hw
  simp only [Bool.or_eq_true, beq_iff_eq] at hw
  rcases hw with ((rfl | rfl) | rfl) | rfl <;> exact absurd h (by decide)

/-- A list of digits is untouched by `takeWhile isDecDigit`. -/
theorem takeWhile_all_digits :
    ∀ l : List Char, (∀ c ∈ l, isDecDigit c = true) →
      l.takeWhile isDecDigit = l := by
  intro l
  induction l with
  | nil => intro _; rfl
  | cons c cs ih =>
    intro h
    rw [List.takeWhile_cons, h c (by simp)]
    simp only [if_true]
    rw [ih (fun x hx => h x (by simp [hx]))]

/-- `Nat.repr` prints a non-empty all-digit string whose numeric value is
the input. -/
theorem natRepr_shape (n : Nat) :
    (Nat.repr n).data ≠ [] ∧
    (∀ c ∈ (Nat.repr n).data, isDecDigit c = true) ∧
    digitsVal 0 (Nat.repr n).data = n := by
  obtain ⟨pre, hpre, hne, hdig, hval⟩ := toDigitsCore_spec n (n + 1) [] (by omega)
  have hdata : (Nat.repr n).data = pre := by
    show (Nat.toDigits 10 n).asString.data = pre
    rw [Nat.toDigits, hpre, List.append_nil]
    rfl
  refine ⟨by rw [hdata]; exact hne, by rw [hdata]; exact hdig, ?_⟩
  rw [hdata]
  have := hval 0
  simpa using this

/-- The decimal printer/parser roundtrip: `parseInt` recovers every printed
natural number. -/
theorem jsParseInt_natRepr (n : Nat) :
    jsParseInt (Nat.repr n) = some (n : Int) := by
  obtain ⟨hne, hdig, hval⟩ := natRepr_shape n
  obtain ⟨c, rest, hcr⟩ : ∃ c rest, (Nat.repr n).data = c :: rest := by
    cases h : (Nat.repr n).data with
    | nil => exact absurd h hne
    | cons c r => exact ⟨c, r, rfl⟩
  have hdc : isDecDigit c = true := hdig c (by rw [hcr]; simp)
  have hdrop : (Nat.repr n).data.dropWhile jsWsChar = c :: rest := by
    rw [hcr, List.dropWhile_cons, jsWsChar_eq_false_of_digit c hdc]
    simp
  have hcm : ¬c = '-' := by
    intro h
    rw [h] at hdc
    exact absurd hdc (by decide)
  have hcp : ¬c = '+' := by
    intro h
    rw [h] at hdc
    exact absurd hdc (by decide)
  rw [jsParseInt]
  rw [hdrop]
  simp only [hcm, hcp, if_false]
  rw [jsParseDigits]
  have htake : (c :: rest).takeWhile isDecDigit = c :: rest :=
    takeWhile_all_digits (c :: rest) (by rw [← hcr]; exact hdig)
  simp only [htake, List.isEmpty_cons, if_false]
  rw [← hcr, hval]
  rfl

/-- `Nat.repr` never prints the empty string. -/
theorem natRepr_ne_empty (n : Nat) : Nat.repr n ≠ "" := by
  intro h
  have hd := congrArg String.data h
  exact (natRepr_shape n).1 (hd.trans rfl)

/-- `Int.repr` agrees with `Nat.repr` on casts of naturals. -/
theorem intRepr_natCast (m : Nat) : ((m : Int)).repr = Nat.repr m := rfl

/-- The counter state after `n` calls on a fresh key: absent for `n = 0`,
otherwise the decimal string for `min n limit`, stored with the window as
its TTL. -/
theorem rlState_closed (key : String) (limit window : Nat) (hL : 1 ≤ limit) :
    ∀ n : Nat, rlState key limit window n =
      if n = 0 then []
      else [(key, ⟨Nat.repr (min n limit), window⟩)] := by
  intro n
  induction n with
  | zero => rfl
  | succ n ih =>
    rw [rlState, ih]
    by_cases hn : n = 0
    · subst hn
      simp only [if_pos rfl]
      have hge : jsGe (some 0) (limit : Int) = false := by
        simp only [jsGe, decide_eq_false_iff_not]
        omega
      have hmin : min (0 + 1) limit = 1 := by omega
      simp [checkRateLimit, kvGet, hge, kvPut, kvDelete, numToStr, hmin]
      rfl
    · simp only [if_neg hn, Nat.add_eq_zero, hn, false_and, if_false]
      have hmpos : 1 ≤ min n limit := by omega
      have hget : kvGet [(key, ⟨Nat.repr (min n limit), window⟩)] key
          = some (Nat.repr (min n limit)) := by
        simp [kvGet, List.lookup_cons]
      have hne' : ¬Nat.repr (min n limit) = "" := natRepr_ne_empty (min n limit)
      have hparse : jsParseInt (Nat.repr (min n limit)) = some ((min n limit : Nat) : Int) :=
        jsParseInt_natRepr (min n limit)
      by_cases hge : limit ≤ min n limit
      · have hjs : jsGe (some ((min n limit : Nat) : Int)) (limit : Int) = true := by
          simp only [jsGe, decide_eq_true_eq]
          omega
        have hmin : min (n + 1) limit = min n limit := by omega
        simp only [checkRateLimit, hget, hne', if_false, hparse, hjs, if_true, hmin]
      · have hjs : jsGe (some ((min n limit : Nat) : Int)) (limit : Int) = false := by
          simp only [jsGe, decide_eq_false_iff_not]
          omega
        have hmn : min n limit = n := by omega
        have hmin : min (n + 1) limit = n + 1 := by omega
        have hnum : numToStr (some (((min n limit : Nat) : Int) + 1)) = Nat.repr (n + 1) := by
          rw [hmn]
          have h2 : ((n : Nat) : Int) + 1 = ((n + 1 : Nat) : Int) := by omega
          rw [numToStr, h2, intRepr_natCast]
        simp only [checkRateLimit, hget, hne', if_false, hparse, hjs, Option.map_some,
          kvPut, kvDelete, hnum, hmin]
        simp
        rw [show ((n : Int) ⊓ ((limit : Nat) : Int) + 1) = ((n + 1 : Nat) : Int) from by omega]
        exact intRepr_natCast (n + 1)

/-- C6: on a fresh key with no expiry in between, the `k`-th call for
`k ≤ limit` is allowed with `remaining = limit - k` and leaves the counter
at exactly `k` with the window as TTL (each allowed call increments it by
one); every call after the `limit`-th is denied with `remaining = 0`,
`resetIn = window`, and writes nothing — the state stays at `limit`. -/
theorem checkRateLimit_window_counts (key : String) (limit window k : Nat)
    (hL : 1 ≤ limit) (hk : 1 ≤ k) :
    (k ≤ limit →
      nthRateLimitCall key limit window k =
        ({ allowed := true, remaining := some ((limit : Int) - (k : Int)), resetIn := window },
         [(key, ⟨Nat.repr k, window⟩)])) ∧
    (limit < k →
      (nthRateLimitCall key limit window k).1 =
        { allowed := false, remaining := some 0, resetIn := window } ∧
      (nthRateLimitCall key limit window k).2 = rlState key limit window (k - 1) ∧
      rlState key limit window (k - 1) = [(key, ⟨Nat.repr limit, window⟩)]) := by
  have hstate := rlState_closed key limit window hL (k - 1)
  constructor
  · intro hkL
    rw [nthRateLimitCall, hstate]
    by_cases h1 : k - 1 = 0
    · have hk1 : k = 1 := by omega
      rw [if_pos h1]
      have hge : jsGe (some 0) (limit : Int) = false := by
        simp only [jsGe, decide_eq_false_iff_not]
        omega
      subst hk1
      have hcond : ¬(jsGe (some 0) ((limit : Nat) : Int) = true) := by
        rw [hge]
        exact Bool.false_ne_true
      simp only [checkRateLimit, kvGet, List.lookup_nil, Option.map_none, Option.map_none']
      rw [if_neg hcond]
      rfl
    · simp only [h1, if_false]
      have hmn : min (k - 1) limit = k - 1 := by omega
      rw [hmn]
      have hget : kvGet [(key, ⟨Nat.repr (k - 1), window⟩)] key
          = some (Nat.repr (k - 1)) := by
        simp [kvGet, List.lookup_cons]
      have hne' : ¬Nat.repr (k - 1) = "" := natRepr_ne_empty (k - 1)
      have hparse : jsParseInt (Nat.repr (k - 1)) = some ((k - 1 : Nat) : Int) :=
        jsParseInt_natRepr (k - 1)
      have hjs : jsGe (some ((k - 1 : Nat) : Int)) (limit : Int) = false := by
        simp only [jsGe, decide_eq_false_iff_not]
        omega
      have hnum : numToStr (some (((k - 1 : Nat) : Int) + 1)) = Nat.repr k := by
        have : ((k - 1 : Nat) : Int) + 1 = ((k : Nat) : Int) := by omega
        rw [numToStr, this, intRepr_natCast]
      have hrem : ((k - 1 : Nat) : Int) + 1 = (k : Int) := by omega
      simp only [checkRateLimit, hget, hne', if_false, hparse, hjs, Option.map_some,
        kvPut, kvDelete, hnum, hrem]
      simp <;> exact ⟨hrem, hnum⟩
  · intro hkL
    have hmn : min (k - 1) limit = limit := by omega
    have h1 : ¬(k - 1 = 0) := by omega
    rw [nthRateLimitCall, hstate]
    simp only [h1, if_false, hmn]
    have hget : kvGet [(key, ⟨Nat.repr limit, window⟩)] key
        = some (Nat.repr limit) := by
      simp [kvGet, List.lookup_cons]
    have hne' : ¬Nat.repr limit = "" := natRepr_ne_empty limit
    have hparse : jsParseInt (Nat.repr limit) = some ((limit : Nat) : Int) :=
      jsParseInt_natRepr limit
    have hjs : jsGe (some ((limit : Nat) : Int)) (limit : Int) = true := by
      simp only [jsGe, decide_eq_true_eq]
      omega
    refine ⟨?_, ?_, ?_⟩
    · simp only [checkRateLimit, hget, hne', if_false, hparse, hjs, if_true]
    · simp only [checkRateLimit, hget, hne', if_false, hparse, hjs, if_true]
    · trivial

/-- Witness for C6 at `limit = 2, window = 60`: the first call is allowed
with `remaining = 1` and counter `"1"`, and the third call is denied with
`remaining = 0`. -/
theorem checkRateLimit_window_counts_witness :
    nthRateLimitCall "k" 2 60 1 =
      ({ allowed := true, remaining := some ((2 : Int) - ((1 : Nat) : Int)), resetIn := 60 },
       [("k", ⟨Nat.repr 1, 60⟩)]) ∧
    (nthRateLimitCall "k" 2 60 3).1 =
      { allowed := false, remaining := some 0, resetIn := 60 } :=
  ⟨(checkRateLimit_window_counts "k" 2 60 1 (by decide) (by decide)).1 (by decide),
   ((checkRateLimit_window_counts "k" 2 60 3 (by decide) (by decide)).2 (by decide)).1⟩

end CommitRank
